import Mathlib

/-
Verification of the mini-redis RPC handler layer.

Source files embedded here:
  - src/internal/route/route.go        (the route.go RedisServer handlers)
  - the RedisServer handler variant embedded at the end of src/cli/cmd/root.go
  - request validation rules from the protobuf schema (redis.proto)

The package redis/internal/store is not under src/; its operations
(Get, Set, Delete, Join) are modelled from the spec (spec.md sections 3,
4.2, 4.3) and are marked "Modelled from the spec" below.
-/

namespace MiniRedis

/-- Key-value state: an association list mapping string keys to string
values, modelling the in-memory map owned by the store (spec section 3). -/
abbrev KV := List (String × String)

/-- Lookup of a key in the key-value state. -/
def kvGet : KV → String → Option String
  | [], _ => none
  | (k2, v) :: rest, k => if k2 = k then some v else kvGet rest k

/-- Removal of every binding of a key from the key-value state. -/
def kvDel : KV → String → KV
  | [], _ => []
  | (k2, v) :: rest, k => if k2 = k then kvDel rest k else (k2, v) :: kvDel rest k

/-- Insertion or overwrite of a key binding in the key-value state. -/
def kvSet (m : KV) (k v : String) : KV := (k, v) :: kvDel m k

/-- Store-level error. Modelled from the spec: the spec gives the store a
Get operation whose NotFound outcome is distinct from an empty value
(spec sections 4.2 and 6). -/
inductive StoreErr
  | notFound
deriving DecidableEq

/-- Modelled from the spec: store.Get (redis/internal/store is not under
src/). Reads the key-value state directly; a missing key is the distinct
NotFound outcome, never an empty value (spec sections 4.2 and 6). -/
def storeGet (m : KV) (k : String) : Except StoreErr String :=
  match kvGet m k with
  | some v => .ok v
  | none => .error .notFound

/-- Modelled from the spec: store.Set (redis/internal/store is not under
src/). Inserts or overwrites the binding; the committed apply of a SET
entry always succeeds (spec section 4.1). -/
def storeSet (m : KV) (k v : String) : KV × Option StoreErr :=
  (kvSet m k v, none)

/-- Modelled from the spec: store.Delete (redis/internal/store is not
under src/). Removes the key if present; absence is not an error
(spec section 4.1: DELETE removes key if present, absence is not an
error). -/
def storeDelete (m : KV) (k : String) : KV × Option StoreErr :=
  (kvDel m k, none)

/-- Cluster membership: an association list from node id to bind address
(spec section 3, Node Descriptor). -/
abbrev Membership := List (String × String)

/-- Modelled from the spec: store.Join (redis/internal/store is not under
src/). Adds the node, or updates its address when the id is already
present; re-joining with a duplicate id is idempotent rather than an
error (spec sections 3 and 4.3). -/
def storeJoin (cfg : Membership) (id addr : String) : Membership × Option StoreErr :=
  (kvSet cfg id addr, none)

/-- Connect RPC error codes used by the handlers. -/
inductive Code
  | invalidArgument
  | internal
  | unimplemented
deriving DecidableEq

/-- Connect RPC error: a code plus a message, as built by
connect.NewError in the Go handlers. -/
structure ConnectErr where
  code : Code
  msg : String
deriving DecidableEq

/-- Outcome of a Go handler call: a response, an error, or a run-time
panic (Go handlers may panic; the route.go handlers never do, the
embedded root.go Incr can). -/
inductive GoOutcome (α : Type)
  | ok (a : α)
  | err (e : ConnectErr)
  | panics (msg : String)
deriving DecidableEq

/-- Decimal digit value of a character, or none when it is not an ASCII
digit. -/
def digitVal (c : Char) : Option Nat :=
  if 48 ≤ c.toNat ∧ c.toNat ≤ 57 then some (c.toNat - 48) else none

/-- Accumulating decimal reading of a digit list; fails on any
non-digit. -/
def digitsValAux : List Char → Nat → Option Nat
  | [], acc => some acc
  | c :: cs, acc =>
    match digitVal c with
    | none => none
    | some d => digitsValAux cs (acc * 10 + d)

/-- Decimal value of a non-empty all-digit character list. -/
def digitsVal : List Char → Option Nat
  | [] => none
  | cs => digitsValAux cs 0

/-- Predicate for a value fitting in a signed 64-bit integer, the range
enforced by Go strconv.ParseInt with bit size 64 (and strconv.Atoi on a
64-bit platform). -/
def int64InRange (n : Int) : Prop :=
  -9223372036854775808 ≤ n ∧ n ≤ 9223372036854775807

instance (n : Int) : Decidable (int64InRange n) := by
  unfold int64InRange; infer_instance

/-- Go strconv.Atoi / strconv.ParseInt(s, 10, 64): optional single sign,
then one or more decimal digits, whole string consumed, result within
the signed 64-bit range; anything else is an error (none). -/
def goParseInt (s : String) : Option Int :=
  let p : Int × List Char :=
    match s.data with
    | '+' :: r => (1, r)
    | '-' :: r => (-1, r)
    | r => (1, r)
  match digitsVal p.2 with
  | none => none
  | some n => if int64InRange (p.1 * n) then some (p.1 * n) else none

/-- Wrap-around of signed 64-bit addition, modelling Go int64 overflow of
the increment. -/
def int64wrap (n : Int) : Int :=
  (n + 9223372036854775808) % 18446744073709551616 - 9223372036854775808

/-- Character class of the protobuf key pattern lower a to z, upper A to
Z, digits, underscore and hyphen. -/
def isKeyChar (c : Char) : Bool :=
  decide ((97 ≤ c.toNat ∧ c.toNat ≤ 122) ∨ (65 ≤ c.toNat ∧ c.toNat ≤ 90) ∨
    (48 ≤ c.toNat ∧ c.toNat ≤ 57) ∨ c.toNat = 95 ∨ c.toNat = 45)

/-- Character class of the protobuf remote address pattern: alphanumeric
plus dot, colon and hyphen. -/
def isAddrChar (c : Char) : Bool :=
  isKeyChar c || decide (c.toNat = 46 ∨ c.toNat = 58)

/-- Validation of GetRequest.key and IncrRequest.key: length between 1
and 256, no character pattern in the proto schema for these two
messages. -/
def validKeyLen (k : String) : Bool :=
  decide (1 ≤ k.length ∧ k.length ≤ 256)

/-- Validation of a patterned key (SetRequest, DelRequest items): length
between 1 and 256 and every character in the key character class. -/
def validKeyPat (k : String) : Bool :=
  validKeyLen k && k.data.all isKeyChar

/-- Validation of SetRequest: patterned key plus value length between 1
and 524288 bytes. -/
def validSetReq (k v : String) : Bool :=
  validKeyPat k && decide (1 ≤ v.length ∧ v.length ≤ 524288)

/-- Validation of DelRequest: between 1 and 1000 keys, each matching the
patterned key rule. -/
def validDelReq (ks : List String) : Bool :=
  decide (1 ≤ ks.length ∧ ks.length ≤ 1000) && ks.all validKeyPat

/-- Validation of JoinRequest: node id of length 1 to 64 in the key
character class, remote address of length 1 to 255 in the address
character class. -/
def validJoinReq (id addr : String) : Bool :=
  decide (1 ≤ id.length ∧ id.length ≤ 64) && id.data.all isKeyChar &&
    (decide (1 ≤ addr.length ∧ addr.length ≤ 255) && addr.data.all isAddrChar)

/-- Handler Get of src/internal/route/route.go: validate, read the store,
surface a store error as a CodeInternal RPC error, otherwise return the
value bytes unchanged. -/
def routeGet (m : KV) (k : String) : KV × GoOutcome String :=
  if validKeyLen k then
    match storeGet m k with
    | .error _ => (m, .err ⟨.internal, "key not found"⟩)
    | .ok v => (m, .ok v)
  else (m, .err ⟨.invalidArgument, "validation failed"⟩)

/-- Handler Set of src/internal/route/route.go: validate, store the
key-value pair, return Success true; a store error becomes a
CodeInternal RPC error. -/
def routeSet (m : KV) (k v : String) : KV × GoOutcome Bool :=
  if validSetReq k v then
    match storeSet m k v with
    | (m2, none) => (m2, .ok true)
    | (m2, some _) => (m2, .err ⟨.internal, "set failed"⟩)
  else (m, .err ⟨.invalidArgument, "validation failed"⟩)

/-- Loop body of handler Del of src/internal/route/route.go: one store
delete per key in order; a per-key error is logged and skipped, a
non-error delete increments deletedCount. Parametrised by the store
delete function, whose code is not under src/. -/
def delLoop (f : KV → String → KV × Option StoreErr) : KV → List String → Nat → KV × Nat
  | m, [], c => (m, c)
  | m, k :: ks, c =>
    match f m k with
    | (m2, some _) => delLoop f m2 ks c
    | (m2, none) => delLoop f m2 ks (c + 1)

/-- Handler Del of src/internal/route/route.go over an arbitrary store
delete function: validate, run the per-key loop, always answer with the
accumulated deletedCount. -/
def routeDelWith (f : KV → String → KV × Option StoreErr) (m : KV) (ks : List String) :
    KV × GoOutcome Int :=
  if validDelReq ks then
    ((delLoop f m ks 0).1, .ok (((delLoop f m ks 0).2 : Nat) : Int))
  else (m, .err ⟨.invalidArgument, "validation failed"⟩)

/-- Trace of the per-key store delete results observed by the Del loop,
in request order. -/
def delResults (f : KV → String → KV × Option StoreErr) : KV → List String → List (Option StoreErr)
  | _, [] => []
  | m, k :: ks => (f m k).2 :: delResults f (f m k).1 ks

/-- Handler Del of src/internal/route/route.go applied to the
spec-modelled store delete. -/
def routeDel (m : KV) (ks : List String) : KV × GoOutcome Int :=
  routeDelWith storeDelete m ks

/-- Handler Incr of src/internal/route/route.go: validate, store.Get the
current value (a store error becomes CodeInternal), parse it as a
base-10 integer (a parse failure becomes CodeInvalidArgument with the
message value is not an integer), increment with 64-bit wrap, store.Set
the decimal string back, and return the new value. The handler is a
get-then-set composition, not a single log command. -/
def routeIncr (m : KV) (k : String) : KV × GoOutcome Int :=
  if validKeyLen k then
    match storeGet m k with
    | .error _ => (m, .err ⟨.internal, "key not found"⟩)
    | .ok v =>
      match goParseInt v with
      | none => (m, .err ⟨.invalidArgument, "value is not an integer"⟩)
      | some n =>
        match storeSet m k (toString (int64wrap (n + 1))) with
        | (m2, none) => (m2, .ok (int64wrap (n + 1)))
        | (m2, some _) => (m2, .err ⟨.internal, "set failed"⟩)
  else (m, .err ⟨.invalidArgument, "validation failed"⟩)

/-- Handler Expire of src/internal/route/route.go: returns a
CodeUnimplemented RPC error without touching the store. -/
def routeExpire (m : KV) (_k : String) (_ttl : Int) : KV × GoOutcome Bool :=
  (m, .err ⟨.unimplemented, "expire operation not supported"⟩)

/-- Handler Ping of src/internal/route/route.go: always answers PONG. -/
def routePing (_msg : String) : GoOutcome String :=
  .ok "PONG"

/-- Handler Backup of src/internal/route/route.go: returns a
CodeUnimplemented RPC error without touching the store. -/
def routeBackup (m : KV) (_filename : String) : KV × GoOutcome Bool :=
  (m, .err ⟨.unimplemented, "backup operation not supported"⟩)

/-- Handler Restore of src/internal/route/route.go: returns a
CodeUnimplemented RPC error without touching the store. -/
def routeRestore (m : KV) (_filename : String) : KV × GoOutcome Bool :=
  (m, .err ⟨.unimplemented, "restore operation not supported"⟩)

/-- Join response of route.go: a success flag and an error message, as
in JoinResponse. -/
structure JoinResp where
  success : Bool
  errorMessage : String
deriving DecidableEq

/-- Handler Join of src/internal/route/route.go: validate, call
store.Join; a store error is answered as a JoinResponse with success
false and the message (a nil RPC error), a successful join as success
true. -/
def routeJoin (cfg : Membership) (id addr : String) : Membership × GoOutcome JoinResp :=
  if validJoinReq id addr then
    match storeJoin cfg id addr with
    | (cfg2, none) => (cfg2, .ok ⟨true, ""⟩)
    | (cfg2, some _) => (cfg2, .ok ⟨false, "join failed"⟩)
  else (cfg, .err ⟨.invalidArgument, "validation failed"⟩)

/-- Lowercase hexadecimal digit character, as in the Go encoding/json
hex table. -/
def hexDigit (n : Nat) : Char :=
  if n < 10 then Char.ofNat (48 + n) else Char.ofNat (87 + n)

/-- Escaping of one character exactly as Go encoding/json.Marshal
escapes a string character with the default HTML escaping: quote,
backslash, newline, carriage return and tab get two-character escapes,
other control characters and the HTML characters ampersand, less-than
and greater-than get a six-character unicode escape, the line and
paragraph separators get their unicode escapes, and every other
character stands for itself. -/
def jsonEscapeChar (c : Char) : String :=
  if c = '"' then "\\\""
  else if c = '\\' then "\\\\"
  else if c = '\n' then "\\n"
  else if c = '\r' then "\\r"
  else if c = '\t' then "\\t"
  else if c.toNat < 32 then
    String.mk ['\\', 'u', '0', '0', hexDigit (c.toNat / 16), hexDigit (c.toNat % 16)]
  else if c = '<' then "\\u003c"
  else if c = '>' then "\\u003e"
  else if c = '&' then "\\u0026"
  else if c.toNat = 8232 then "\\u2028"
  else if c.toNat = 8233 then "\\u2029"
  else String.mk [c]

/-- Go json.Marshal of a string value: a double-quoted, escaped copy of
the input, as produced by the b, _ := json.Marshal(value) line of the
embedded Get handler. -/
def jsonEncodeString (s : String) : String :=
  "\"" ++ s.data.foldl (fun acc c => acc ++ jsonEscapeChar c) "" ++ "\""

/-- Handler Get of the variant embedded in src/cli/cmd/root.go:
validate, read the store, surface a store error as CodeInternal, and
answer with the JSON encoding of the value rather than the raw value
bytes. -/
def rootGet (m : KV) (k : String) : KV × GoOutcome String :=
  if validKeyLen k then
    match storeGet m k with
    | .error _ => (m, .err ⟨.internal, "key not found"⟩)
    | .ok v => (m, .ok (jsonEncodeString v))
  else (m, .err ⟨.invalidArgument, "validation failed"⟩)

/-- Handler Set of the variant embedded in src/cli/cmd/root.go: same
observable behaviour as route.go Set (its err.(error) assertion sits in
the branch where err is already non-nil, so it cannot panic). -/
def rootSet (m : KV) (k v : String) : KV × GoOutcome Bool :=
  if validSetReq k v then
    match storeSet m k v with
    | (m2, none) => (m2, .ok true)
    | (m2, some _) => (m2, .err ⟨.internal, "set failed"⟩)
  else (m, .err ⟨.invalidArgument, "validation failed"⟩)

/-- Handler Incr of the variant embedded in src/cli/cmd/root.go:
validate, store.Get (store error becomes CodeInternal), ParseInt base
10 bit size 64 (a parse failure becomes CodeInternal, not
CodeInvalidArgument), increment, store.Set, then evaluate the type
assertion errr.(error) on the returned error value: when store.Set
returns a nil error the assertion is on a nil interface and panics at
run time; when it returns a non-nil error the assertion succeeds and
the branch answers CodeInternal. The success response line is
unreachable. -/
def rootIncr (m : KV) (k : String) : KV × GoOutcome Int :=
  if validKeyLen k then
    match storeGet m k with
    | .error _ => (m, .err ⟨.internal, "key not found"⟩)
    | .ok v =>
      match goParseInt v with
      | none => (m, .err ⟨.internal, "value parse error"⟩)
      | some n =>
        match storeSet m k (toString (int64wrap (n + 1))) with
        | (m2, none) => (m2, .panics "interface conversion: interface is nil, not error")
        | (m2, some _) => (m2, .err ⟨.internal, "set failed"⟩)
  else (m, .err ⟨.invalidArgument, "validation failed"⟩)

/-- Handler Ping of the variant embedded in src/cli/cmd/root.go: always
answers PONG, identically to route.go. -/
def rootPing (_msg : String) : GoOutcome String :=
  .ok "PONG"

/-- Handler Expire of the variant embedded in src/cli/cmd/root.go:
identical CodeUnimplemented answer. -/
def rootExpire (m : KV) (_k : String) (_ttl : Int) : KV × GoOutcome Bool :=
  (m, .err ⟨.unimplemented, "expire operation not supported"⟩)

/-- Handler Backup of the variant embedded in src/cli/cmd/root.go:
identical CodeUnimplemented answer. -/
def rootBackup (m : KV) (_filename : String) : KV × GoOutcome Bool :=
  (m, .err ⟨.unimplemented, "backup operation not supported"⟩)

/-- Handler Restore of the variant embedded in src/cli/cmd/root.go:
identical CodeUnimplemented answer. -/
def rootRestore (m : KV) (_filename : String) : KV × GoOutcome Bool :=
  (m, .err ⟨.unimplemented, "restore operation not supported"⟩)

/-- Phase of one in-flight route.go Incr call in the interleaving model:
about to run the store.Get-and-parse step, about to run the store.Set
step carrying the value it read, or finished with its outcome. -/
inductive IncrPhase
  | toRead
  | toWrite (n : Int)
  | done (r : GoOutcome Int)
deriving DecidableEq

/-- One scheduler step of the interleaving model for concurrent route.go
Incr calls on key k: thread tid executes its next atomic store access.
The read phase performs exactly the store.Get plus strconv.Atoi part of
routeIncr (including validation), the write phase performs exactly its
store.Set part; between the two steps other threads may run, which is
what a single atomic log INCR command would forbid. -/
def stepIncr (k : String) (s : KV × List IncrPhase) (tid : Nat) : KV × List IncrPhase :=
  match s.2.get? tid with
  | none => s
  | some .toRead =>
    if validKeyLen k then
      match storeGet s.1 k with
      | .error _ => (s.1, s.2.set tid (.done (.err ⟨.internal, "key not found"⟩)))
      | .ok v =>
        match goParseInt v with
        | none => (s.1, s.2.set tid (.done (.err ⟨.invalidArgument, "value is not an integer"⟩)))
        | some n => (s.1, s.2.set tid (.toWrite n))
    else (s.1, s.2.set tid (.done (.err ⟨.invalidArgument, "validation failed"⟩)))
  | some (.toWrite n) =>
    match storeSet s.1 k (toString (int64wrap (n + 1))) with
    | (m2, none) => (m2, s.2.set tid (.done (.ok (int64wrap (n + 1)))))
    | (m2, some _) => (m2, s.2.set tid (.done (.err ⟨.internal, "set failed"⟩)))
  | some (.done _) => s

/-- Execution of a schedule of thread identifiers over nThreads
concurrent route.go Incr calls on key k, starting from state m0 with
every thread about to read. -/
def runIncrSched (k : String) (m0 : KV) (nThreads : Nat) (sched : List Nat) :
    KV × List IncrPhase :=
  sched.foldl (stepIncr k) (m0, List.replicate nThreads .toRead)

/-- Lookup after insertion of the same key yields the inserted value. -/
theorem kvGet_kvSet_self (m : KV) (k v : String) : kvGet (kvSet m k v) k = some v := by
  simp [kvSet, kvGet]

/-- Deleting a key twice removes exactly what deleting it once does. -/
theorem kvDel_idem (m : KV) (k : String) : kvDel (kvDel m k) k = kvDel m k := by
  induction m with
  | nil => rfl
  | cons p rest ih =>
    obtain ⟨k2, v⟩ := p
    by_cases h : k2 = k
    · simp [kvDel, h, ih]
    · simp [kvDel, h, ih]

/-- Inserting the same binding twice equals inserting it once. -/
theorem kvSet_idem (m : KV) (k v : String) : kvSet (kvSet m k v) k v = kvSet m k v := by
  simp [kvSet, kvDel, kvDel_idem]

/-- Lookup of a key right after its deletion yields none. -/
theorem kvGet_kvDel_self (m : KV) (k : String) : kvGet (kvDel m k) k = none := by
  induction m with
  | nil => rfl
  | cons p rest ih =>
    obtain ⟨k2, v⟩ := p
    by_cases h : k2 = k
    · simp [kvDel, h, ih]
    · simp [kvDel, kvGet, h, ih]

/-- Deletion of any key preserves the absence of a key. -/
theorem kvGet_kvDel_none (m : KV) (k k2 : String) (h : kvGet m k = none) :
    kvGet (kvDel m k2) k = none := by
  induction m with
  | nil => rfl
  | cons p rest ih =>
    obtain ⟨k3, v⟩ := p
    by_cases h3 : k3 = k
    · simp [kvGet, h3] at h
    · simp [kvGet, h3] at h
      by_cases h2 : k3 = k2
      · simp [kvDel, h2, ih h]
      · simp [kvDel, kvGet, h2, h3, ih h]

/-- Running the Del loop with the spec-modelled store delete preserves
the absence of a key. -/
theorem kvGet_delLoop_none (ks : List String) (m : KV) (c : Nat) (k : String)
    (h : kvGet m k = none) : kvGet (delLoop storeDelete m ks c).1 k = none := by
  induction ks generalizing m c with
  | nil => exact h
  | cons a ks ih => simpa [delLoop, storeDelete] using ih (kvDel m a) (c + 1) (kvGet_kvDel_none m k a h)

/-- Running the Del loop with the spec-modelled store delete removes
every requested key. -/
theorem kvGet_delLoop_mem (ks : List String) (m : KV) (c : Nat) (k : String)
    (h : k ∈ ks) : kvGet (delLoop storeDelete m ks c).1 k = none := by
  induction ks generalizing m c with
  | nil => cases h
  | cons a ks ih =>
    rcases List.mem_cons.mp h with h | h
    · subst h
      simpa [delLoop, storeDelete] using
        kvGet_delLoop_none ks (kvDel m k) (c + 1) k (kvGet_kvDel_self m k)
    · simpa [delLoop, storeDelete] using ih h (m := kvDel m a) (c := c + 1)

/-- Count of the Del loop: the accumulator plus the number of keys whose
store delete returned no error. -/
theorem delLoop_count (f : KV → String → KV × Option StoreErr) (ks : List String) (m : KV)
    (c : Nat) :
    (delLoop f m ks c).2 = c + (delResults f m ks).countP (fun e => e.isNone) := by
  induction ks generalizing m c with
  | nil => simp [delLoop, delResults]
  | cons a ks ih =>
    rcases hf : f m a with ⟨m2, e⟩
    cases e with
    | none =>
      simp [delLoop, delResults, hf, List.countP_cons, ih]
      omega
    | some s =>
      simp [delLoop, delResults, hf, List.countP_cons, ih]

/-- Count of the Del loop with the spec-modelled store delete: every key
counts, whether or not it existed. -/
theorem delLoop_storeDelete_count (ks : List String) (m : KV) (c : Nat) :
    (delLoop storeDelete m ks c).2 = c + ks.length := by
  induction ks generalizing m c with
  | nil => simp [delLoop]
  | cons a ks ih =>
    simp [delLoop, storeDelete, ih]
    omega

/-- Range of a successful Go integer parse: the value fits in a signed
64-bit integer. -/
theorem goParseInt_inRange (s : String) (n : Int) (h : goParseInt s = some n) :
    int64InRange n := by
  simp only [goParseInt] at h
  split at h
  · exact absurd h (by simp)
  · split at h
    · cases h
      assumption
    · exact absurd h (by simp)

/-- Wrap-around addition is the identity on values already in the signed
64-bit range. -/
theorem int64wrap_of_inRange (n : Int) (h : int64InRange n) : int64wrap n = n := by
  obtain ⟨h1, h2⟩ := h
  unfold int64wrap
  rw [Int.emod_eq_of_lt (by omega) (by omega)]
  omega

/-- Every escaped character occupies at least one character. -/
theorem one_le_jsonEscapeChar_length (c : Char) : 1 ≤ (jsonEscapeChar c).length := by
  unfold jsonEscapeChar
  repeat' split
  all_goals simp [String.length]

/-- Folding the JSON escaper over a character list only grows the
accumulated string, by at least one character per input character. -/
theorem foldl_jsonEscape_length (l : List Char) (acc : String) :
    acc.length + l.length ≤ (l.foldl (fun a c => a ++ jsonEscapeChar c) acc).length := by
  induction l generalizing acc with
  | nil => simp
  | cons c cs ih =>
    have h1 := ih (acc ++ jsonEscapeChar c)
    have h2 := one_le_jsonEscapeChar_length c
    rw [String.length_append] at h1
    simp only [List.foldl, List.length_cons]
    omega

/-- The JSON encoding of a string is strictly longer than the string. -/
theorem jsonEncodeString_length (s : String) : s.length + 2 ≤ (jsonEncodeString s).length := by
  unfold jsonEncodeString
  rw [String.length_append, String.length_append]
  have h := foldl_jsonEscape_length s.data ""
  have h0 : ("" : String).length = 0 := rfl
  have h1 : ("\"" : String).length = 1 := rfl
  have hd : s.data.length = s.length := rfl
  omega

/-- The JSON encoding of a string never equals the string itself. -/
theorem jsonEncodeString_ne (s : String) : jsonEncodeString s ≠ s := by
  intro h
  have h2 := jsonEncodeString_length s
  rw [h] at h2
  omega

/-- Validation of a Set request implies validation of the key alone under
the Get and Incr key rule. -/
theorem validKeyLen_of_validSetReq (k v : String) (h : validSetReq k v = true) :
    validKeyLen k = true := by
  simp only [validSetReq, validKeyPat, Bool.and_eq_true] at h
  exact h.1.1

/-- C1: the route.go Incr handler is a store.Get followed by a
store.Set, not a single atomic INCR log command, so increments admit
lost updates. Starting from counter holding 0, the interleaving in
which both of two concurrent Incr calls read before either writes
leaves the counter holding 1, both callers observing success with value
1, whereas the sequential schedule of the same two calls leaves 2 — so
two concurrent increment calls against a key initialized to 0 need not
result in 2. -/
theorem c1_incr_get_then_set_lost_update :
    (runIncrSched "counter" [("counter", "0")] 2 [0, 1, 0, 1]).1 = [("counter", "1")] ∧
    (runIncrSched "counter" [("counter", "0")] 2 [0, 1, 0, 1]).2 =
      [IncrPhase.done (GoOutcome.ok 1), IncrPhase.done (GoOutcome.ok 1)] ∧
    (runIncrSched "counter" [("counter", "0")] 2 [0, 0, 1, 1]).1 = [("counter", "2")] ∧
    ("1" : String) ≠ "2" := by
  decide

/-- C2 counterexample: an Incr on a key that is missing does not treat
the current value as 0 and return 1; the route.go handler surfaces the
store NotFound as a CodeInternal RPC error instead, so the first Incr on
a fresh key fails rather than returning 1. -/
theorem c2_incr_missing_key_counterexample :
    (routeIncr ([] : KV) "a").2 = GoOutcome.err ⟨Code.internal, "key not found"⟩ ∧
    (routeIncr ([] : KV) "a").2 ≠ GoOutcome.ok 1 := by
  decide

/-- C2 amended: for every Incr request on key k passing validation, if
the current value of k parses as a base-10 signed 64-bit integer n with
n below the maximum, the handler stores the decimal string of n plus
one and returns n plus one; if k is missing the handler fails with a
CodeInternal error leaving the state unchanged (the missing key is not
treated as 0); and if the current value does not parse as a base-10
signed 64-bit integer the handler fails with a CodeInvalidArgument
error, value is not an integer, leaving the state unchanged. -/
theorem c2_incr_semantics_amended :
    (∀ (m : KV) (k v : String) (n : Int), validKeyLen k = true → kvGet m k = some v →
      goParseInt v = some n → n ≠ 9223372036854775807 →
      routeIncr m k = (kvSet m k (toString (n + 1)), GoOutcome.ok (n + 1))) ∧
    (∀ (m : KV) (k : String), validKeyLen k = true → kvGet m k = none →
      (routeIncr m k).1 = m ∧
      (routeIncr m k).2 = GoOutcome.err ⟨Code.internal, "key not found"⟩) ∧
    (∀ (m : KV) (k v : String), validKeyLen k = true → kvGet m k = some v →
      goParseInt v = none →
      routeIncr m k = (m, GoOutcome.err ⟨Code.invalidArgument, "value is not an integer"⟩)) := by
  refine ⟨?_, ?_, ?_⟩
  · intro m k v n hval hkv hparse hne
    have hw : int64wrap (n + 1) = n + 1 := by
      have hr := goParseInt_inRange v n hparse
      obtain ⟨h1, h2⟩ := hr
      exact int64wrap_of_inRange (n + 1) ⟨by omega, by omega⟩
    simp [routeIncr, hval, storeGet, hkv, hparse, storeSet, hw]
  · intro m k hval hkv
    simp [routeIncr, hval, storeGet, hkv]
  · intro m k v hval hkv hparse
    simp [routeIncr, hval, storeGet, hkv, hparse]

/-- C2 witness: on state a maps to 41, Incr a stores 42 and returns
42. -/
theorem c2_incr_semantics_amended_witness :
    routeIncr [("a", "41")] "a" = (kvSet [("a", "41")] "a" (toString ((41 : Int) + 1)),
      GoOutcome.ok ((41 : Int) + 1)) :=
  c2_incr_semantics_amended.1 [("a", "41")] "a" "41" 41 (by decide) (by decide) (by decide)
    (by decide)

/-- C3 counterexample: on the handler variant embedded in
src/cli/cmd/root.go, Set a 1 succeeds, but the subsequent Get a returns
the JSON encoding of the stored value, a quoted string, not the stored
value 1 itself, so the Get result is a transformation of what was
stored. -/
theorem c3_set_get_counterexample :
    (rootSet ([] : KV) "a" "1").2 = GoOutcome.ok true ∧
    (rootGet (rootSet ([] : KV) "a" "1").1 "a").2 = GoOutcome.ok "\"1\"" ∧
    ("\"1\"" : String) ≠ "1" := by
  decide

/-- C3 amended: for every valid key and value, after Set succeeds, a Get
served by the route.go handler returns exactly the stored value with no
re-encoding; the handler variant embedded in src/cli/cmd/root.go
instead returns the JSON encoding of the stored value. -/
theorem c3_set_get_amended :
    ∀ (m : KV) (k v : String), validSetReq k v = true →
      (routeSet m k v).2 = GoOutcome.ok true ∧
      routeGet (routeSet m k v).1 k = ((routeSet m k v).1, GoOutcome.ok v) ∧
      (rootSet m k v).2 = GoOutcome.ok true ∧
      rootGet (rootSet m k v).1 k = ((rootSet m k v).1, GoOutcome.ok (jsonEncodeString v)) := by
  intro m k v h
  have hlen := validKeyLen_of_validSetReq k v h
  refine ⟨?_, ?_, ?_, ?_⟩
  · simp [routeSet, h, storeSet]
  · simp [routeSet, routeGet, h, hlen, storeSet, storeGet, kvGet_kvSet_self]
  · simp [rootSet, h, storeSet]
  · simp [rootSet, rootGet, h, hlen, storeSet, storeGet, kvGet_kvSet_self]

/-- C3 witness: Set a 1 then Get a on the route.go handler returns
exactly 1. -/
theorem c3_set_get_amended_witness :
    (routeSet ([] : KV) "a" "1").2 = GoOutcome.ok true ∧
    routeGet (routeSet ([] : KV) "a" "1").1 "a" =
      ((routeSet ([] : KV) "a" "1").1, GoOutcome.ok "1") ∧
    (rootSet ([] : KV) "a" "1").2 = GoOutcome.ok true ∧
    rootGet (rootSet ([] : KV) "a" "1").1 "a" =
      ((rootSet ([] : KV) "a" "1").1, GoOutcome.ok (jsonEncodeString "1")) :=
  c3_set_get_amended [] "a" "1" (by decide)

/-- C4: a Get on a key that was never set, or whose most recent mutation
is a delete, answers the distinct NotFound outcome, a CodeInternal RPC
error, never an error-free value; in particular after a Del request
containing the key, Get on that key yields the NotFound error. -/
theorem c4_get_notfound :
    (∀ (m : KV) (k : String), validKeyLen k = true → kvGet m k = none →
      (routeGet m k).2 = GoOutcome.err ⟨Code.internal, "key not found"⟩ ∧
      ∀ v, (routeGet m k).2 ≠ GoOutcome.ok v) ∧
    (∀ (m : KV) (ks : List String) (k : String), validDelReq ks = true →
      validKeyLen k = true → k ∈ ks →
      (routeGet (routeDel m ks).1 k).2 = GoOutcome.err ⟨Code.internal, "key not found"⟩) := by
  constructor
  · intro m k hval hkv
    simp [routeGet, hval, storeGet, hkv]
  · intro m ks k hdel hval hmem
    have h1 : kvGet (delLoop storeDelete m ks 0).1 k = none := kvGet_delLoop_mem ks m 0 k hmem
    simp [routeDel, routeDelWith, hdel, routeGet, hval, storeGet, h1]

/-- C4 witness: after Del a on a state holding a, Get a yields the
NotFound error. -/
theorem c4_get_notfound_witness :
    (routeGet (routeDel [("a", "1")] ["a"]).1 "a").2 =
      GoOutcome.err ⟨Code.internal, "key not found"⟩ :=
  c4_get_notfound.2 [("a", "1")] ["a"] "a" (by decide) (by decide) (by decide)

/-- C5 counterexample: deleting the same key twice in succession never
errors, but the second delete does not report zero effect: with the
spec-modelled store delete, where absence is not an error, every
non-erroring per-key delete is counted, so the second Del of the lone
key a answers deletedCount 1 even though a no longer existed. -/
theorem c5_del_counterexample :
    (routeDel [("a", "1")] ["a"]).2 = GoOutcome.ok 1 ∧
    kvGet (routeDel [("a", "1")] ["a"]).1 "a" = none ∧
    (routeDel (routeDel [("a", "1")] ["a"]).1 ["a"]).2 = GoOutcome.ok 1 ∧
    (1 : Int) ≠ 0 := by
  decide

/-- C5 amended: deleting the same key twice in succession never errors,
and deletedCount counts the keys whose store delete returned no error
regardless of prior existence: every valid Del request answers the
number of requested keys, so the second delete of a single key reports
deletedCount 1, not zero effect. -/
theorem c5_del_amended :
    (∀ (m : KV) (ks : List String), validDelReq ks = true →
      (routeDel m ks).2 = GoOutcome.ok (ks.length : Int)) ∧
    (∀ (m : KV) (k : String), validDelReq [k] = true →
      (routeDel m [k]).2 = GoOutcome.ok 1 ∧
      (routeDel (routeDel m [k]).1 [k]).2 = GoOutcome.ok 1) := by
  have hmain : ∀ (m : KV) (ks : List String), validDelReq ks = true →
      (routeDel m ks).2 = GoOutcome.ok (ks.length : Int) := by
    intro m ks h
    simp [routeDel, routeDelWith, h, delLoop_storeDelete_count]
  refine ⟨hmain, ?_⟩
  intro m k h
  refine ⟨hmain m [k] h, ?_⟩
  have h2 := hmain (routeDel m [k]).1 [k] h
  simpa using h2

/-- C5 witness: on a state holding a, the first and the second Del of a
both answer deletedCount 1. -/
theorem c5_del_amended_witness :
    (routeDel [("a", "1")] ["a"]).2 = GoOutcome.ok 1 ∧
    (routeDel (routeDel [("a", "1")] ["a"]).1 ["a"]).2 = GoOutcome.ok 1 :=
  c5_del_amended.2 [("a", "1")] "a" (by decide)

/-- C6: joining twice with the same node id and address succeeds both
times and leaves cluster membership unchanged after the second call,
and joining with an already present node id but a different address
succeeds and updates that node to the new address rather than
erroring. -/
theorem c6_join_idempotent :
    (∀ (cfg : Membership) (id addr : String), validJoinReq id addr = true →
      (routeJoin cfg id addr).2 = GoOutcome.ok ⟨true, ""⟩ ∧
      (routeJoin (routeJoin cfg id addr).1 id addr).2 = GoOutcome.ok ⟨true, ""⟩ ∧
      (routeJoin (routeJoin cfg id addr).1 id addr).1 = (routeJoin cfg id addr).1) ∧
    (∀ (cfg : Membership) (id a1 a2 : String), validJoinReq id a1 = true →
      validJoinReq id a2 = true →
      (routeJoin (routeJoin cfg id a1).1 id a2).2 = GoOutcome.ok ⟨true, ""⟩ ∧
      kvGet (routeJoin (routeJoin cfg id a1).1 id a2).1 id = some a2) := by
  constructor
  · intro cfg id addr h
    refine ⟨?_, ?_, ?_⟩
    · simp [routeJoin, h, storeJoin]
    · simp [routeJoin, h, storeJoin]
    · simp [routeJoin, h, storeJoin, kvSet_idem]
  · intro cfg id a1 a2 h1 h2
    constructor
    · simp [routeJoin, h1, h2, storeJoin]
    · simp [routeJoin, h1, h2, storeJoin, kvGet_kvSet_self]

/-- C6 witness: joining node1 twice at the same address keeps the
membership unchanged, and re-joining node1 at a second address updates
its stored address. -/
theorem c6_join_idempotent_witness :
    ((routeJoin ([] : Membership) "node1" "127.0.0.1:12001").2 = GoOutcome.ok ⟨true, ""⟩ ∧
      (routeJoin (routeJoin ([] : Membership) "node1" "127.0.0.1:12001").1 "node1"
        "127.0.0.1:12001").2 = GoOutcome.ok ⟨true, ""⟩ ∧
      (routeJoin (routeJoin ([] : Membership) "node1" "127.0.0.1:12001").1 "node1"
        "127.0.0.1:12001").1 = (routeJoin ([] : Membership) "node1" "127.0.0.1:12001").1) ∧
    kvGet (routeJoin (routeJoin ([] : Membership) "node1" "127.0.0.1:12001").1 "node1"
      "127.0.0.1:12002").1 "node1" = some "127.0.0.1:12002" :=
  ⟨c6_join_idempotent.1 [] "node1" "127.0.0.1:12001" (by decide),
    (c6_join_idempotent.2 [] "node1" "127.0.0.1:12001" "127.0.0.1:12002" (by decide)
      (by decide)).2⟩

/-- C7: for every state and request, the route.go Expire, Backup and
Restore handlers each answer the typed CodeUnimplemented error with a
clear not-supported message, leave the key-value state unchanged, and
hence are neither silent no-ops nor state mutations. -/
theorem c7_unimplemented_ops :
    ∀ (m : KV) (k : String) (ttl : Int) (f : String),
      routeExpire m k ttl = (m, GoOutcome.err ⟨Code.unimplemented,
        "expire operation not supported"⟩) ∧
      routeBackup m f = (m, GoOutcome.err ⟨Code.unimplemented,
        "backup operation not supported"⟩) ∧
      routeRestore m f = (m, GoOutcome.err ⟨Code.unimplemented,
        "restore operation not supported"⟩) := by
  intro m k ttl f
  exact ⟨rfl, rfl, rfl⟩

/-- C8 counterexample: the Incr handler embedded in src/cli/cmd/root.go
is not total: on state a maps to 1, the store.Set of the incremented
value returns a nil error and the type assertion errr dot error on that
nil interface panics at run time, so the handler panics on its success
path instead of returning a response. -/
theorem c8_incr_panic_counterexample :
    (rootIncr [("a", "1")] "a").2 =
      GoOutcome.panics "interface conversion: interface is nil, not error" := by
  decide

/-- C8 amended: the embedded Incr handler returns a response or error
without panicking on the validation-failure, missing-key and
non-integer paths, but on every path that reaches store.Set with a nil
error result, which under the spec-modelled store is every path
reaching store.Set, the type assertion errr dot error panics, so the
handler is not total on its success path. -/
theorem c8_incr_totality_amended :
    (∀ (m : KV) (k v : String) (n : Int), validKeyLen k = true → kvGet m k = some v →
      goParseInt v = some n →
      (rootIncr m k).2 =
        GoOutcome.panics "interface conversion: interface is nil, not error" ∧
      (rootIncr m k).1 = kvSet m k (toString (int64wrap (n + 1)))) ∧
    (∀ (m : KV) (k : String), validKeyLen k = true → kvGet m k = none →
      (rootIncr m k).2 = GoOutcome.err ⟨Code.internal, "key not found"⟩) ∧
    (∀ (m : KV) (k v : String), validKeyLen k = true → kvGet m k = some v →
      goParseInt v = none →
      (rootIncr m k).2 = GoOutcome.err ⟨Code.internal, "value parse error"⟩) := by
  refine ⟨?_, ?_, ?_⟩
  · intro m k v n hval hkv hparse
    constructor
    · simp [rootIncr, hval, storeGet, hkv, hparse, storeSet]
    · simp [rootIncr, hval, storeGet, hkv, hparse, storeSet]
  · intro m k hval hkv
    simp [rootIncr, hval, storeGet, hkv]
  · intro m k v hval hkv hparse
    simp [rootIncr, hval, storeGet, hkv, hparse]

/-- C8 witness: on state a maps to 41 the embedded Incr panics after
storing 42. -/
theorem c8_incr_totality_amended_witness :
    (rootIncr [("a", "41")] "a").2 =
      GoOutcome.panics "interface conversion: interface is nil, not error" ∧
    (rootIncr [("a", "41")] "a").1 = kvSet [("a", "41")] "a" (toString (int64wrap (41 + 1))) :=
  c8_incr_totality_amended.1 [("a", "41")] "a" "41" 41 (by decide) (by decide) (by decide)

/-- C9: for every store delete behaviour and every Del request passing
validation, the route.go Del handler answers a successful response and
never an RPC error, and the reported deletedCount equals the number of
keys whose store delete call returned no error, whether or not those
keys existed; with the spec-modelled store delete, where absence is not
an error, the count is simply the number of requested keys. -/
theorem c9_del_always_ok :
    (∀ (f : KV → String → KV × Option StoreErr) (m : KV) (ks : List String),
      validDelReq ks = true →
      (routeDelWith f m ks).2 =
        GoOutcome.ok (((delResults f m ks).countP (fun e => e.isNone) : Nat) : Int) ∧
      ∀ e, (routeDelWith f m ks).2 ≠ GoOutcome.err e) ∧
    (∀ (m : KV) (ks : List String), validDelReq ks = true →
      (routeDelWith storeDelete m ks).2 = GoOutcome.ok (ks.length : Int)) := by
  constructor
  · intro f m ks h
    constructor
    · simp [routeDelWith, h, delLoop_count]
    · intro e
      simp [routeDelWith, h]
  · intro m ks h
    simp [routeDelWith, h, delLoop_storeDelete_count]

/-- C9 witness: a two-key Del request on a state holding only one of the
keys answers deletedCount 2 and no error. -/
theorem c9_del_always_ok_witness :
    (routeDelWith storeDelete [("a", "1")] ["a", "b"]).2 =
      GoOutcome.ok (((delResults storeDelete [("a", "1")] ["a", "b"]).countP
        (fun e => e.isNone) : Nat) : Int) ∧
    ∀ e, (routeDelWith storeDelete [("a", "1")] ["a", "b"]).2 ≠ GoOutcome.err e :=
  c9_del_always_ok.1 storeDelete [("a", "1")] ["a", "b"] (by decide)

/-- C10 counterexample: the two handler variants are not observationally
equivalent: on the state a maps to 1, the route.go Get answers the raw
value 1 while the Get embedded in src/cli/cmd/root.go answers the JSON
encoding, a quoted 1, so the same Get request produces different
outcomes. -/
theorem c10_variants_counterexample :
    routeGet [("a", "1")] "a" ≠ rootGet [("a", "1")] "a" ∧
    routeGet [("a", "1")] "a" = ([("a", "1")], GoOutcome.ok "1") ∧
    rootGet [("a", "1")] "a" = ([("a", "1")], GoOutcome.ok "\"1\"") := by
  decide

/-- C10 amended: the two handler variants are not observationally
equivalent: whenever a key is present, route.go Get answers the stored
value while the embedded Get answers its JSON encoding, and the two
always differ; the Ping, Expire, Backup and Restore handlers of the two
variants do coincide. -/
theorem c10_variants_amended :
    (∀ (m : KV) (k v : String), validKeyLen k = true → kvGet m k = some v →
      routeGet m k = (m, GoOutcome.ok v) ∧
      rootGet m k = (m, GoOutcome.ok (jsonEncodeString v)) ∧
      jsonEncodeString v ≠ v) ∧
    (∀ msg : String, routePing msg = rootPing msg) ∧
    (∀ (m : KV) (k : String) (ttl : Int), routeExpire m k ttl = rootExpire m k ttl) ∧
    (∀ (m : KV) (f : String), routeBackup m f = rootBackup m f ∧
      routeRestore m f = rootRestore m f) := by
  refine ⟨?_, fun msg => rfl, fun m k ttl => rfl, fun m f => ⟨rfl, rfl⟩⟩
  intro m k v hval hkv
  exact ⟨by simp [routeGet, hval, storeGet, hkv],
    by simp [rootGet, hval, storeGet, hkv],
    jsonEncodeString_ne v⟩

/-- C10 witness: on the state a maps to 1, route.go Get answers 1, the
embedded Get answers the quoted JSON form, and the two strings
differ. -/
theorem c10_variants_amended_witness :
    routeGet [("a", "1")] "a" = ([("a", "1")], GoOutcome.ok "1") ∧
    rootGet [("a", "1")] "a" = ([("a", "1")], GoOutcome.ok (jsonEncodeString "1")) ∧
    jsonEncodeString "1" ≠ "1" :=
  c10_variants_amended.1 [("a", "1")] "a" "1" (by decide) (by decide)

end MiniRedis
